import Mathlib

/-!
Shallow embedding of `src/pedlar.ts` (the pedlar effect engine): the
registry of destroyers, the dependency comparator `dependenciesChanged`,
the handle object returned by `Pedlar.create` with its `perform` method,
and the `destroy` / `destroyAll` operations.

Modelling conventions:
* JavaScript values that the engine inspects are `JSValue`; objects and
  functions carry a `Nat` reference token so that `===` (identity on
  non-primitives) is expressible.
* `generateId` is imported by the source from `./generateId`, a module not
  present in the repository snapshot; the spec treats it as an opaque
  external service producing unique strings.  It is modelled as a counter
  (`nextId`) handing out fresh `Nat` ids, which realises the uniqueness
  contract.
* Mutation is explicit state passing: `PState` is the `Pedlar` instance's
  state (its `destroyers` map, the id counter, and an observation trace of
  side-effect executions and destroyer invocations); `Handle` is the
  mutable object returned by `Pedlar.create` (`id`, `dependencies`, plus
  `runs`, the number of times this handle's side-effect closure has been
  invoked, which indexes the closure's scripted return values).
* A JavaScript `throw` is `Except.error`; because mutations made before a
  throw persist in JavaScript, the error value carries the state as
  already mutated at the moment of the throw.
* The `destroyers` object is an insertion-ordered association list, as a
  JavaScript object with string keys is; reading a missing key yields
  `undefined`, `delete` removes the key, and assignment updates in place
  or appends.
-/

namespace Pedlar

/-- A JavaScript runtime value as far as the engine inspects values:
`undefined`, `null`, booleans, numbers, strings, objects and functions.
Objects and functions carry a reference token so identity comparison is
expressible; numbers are modelled as integers (the comparator's `NaN`
behaviour is out of scope, as the spec notes). -/
inductive JSValue where
  | undefined : JSValue
  | null : JSValue
  | bool : Bool → JSValue
  | num : Int → JSValue
  | str : String → JSValue
  | obj : Nat → JSValue
  | func : Nat → JSValue
deriving DecidableEq, Repr

/-- JavaScript truthiness: the source's `!destroyer` and `!oldDependencies`
tests negate this.  (Arrays are objects, hence always truthy.) -/
def truthy : JSValue → Bool
  | .undefined => false
  | .null => false
  | .bool b => b
  | .num n => n != 0
  | .str s => s != ""
  | .obj _ => true
  | .func _ => true

/-- The JavaScript typeof operator, used by `validateDestroyer`'s check and
its error message. -/
def jsTypeof : JSValue → String
  | .undefined => "undefined"
  | .null => "object"
  | .bool _ => "boolean"
  | .num _ => "number"
  | .str _ => "string"
  | .obj _ => "object"
  | .func _ => "function"

/-- Strict equality `===` as the comparator's loop applies it: equal
primitives of the same type, or the same object/function reference; values
of different types never compare equal. -/
def strictEq : JSValue → JSValue → Bool
  | .undefined, .undefined => true
  | .null, .null => true
  | .bool a, .bool b => a == b
  | .num a, .num b => a == b
  | .str a, .str b => a == b
  | .obj a, .obj b => a == b
  | .func a, .func b => a == b
  | _, _ => false

/-- The exceptions the engine can raise: `validateDestroyer`'s error (its
payload is the typeof string in the message), the two comparator errors,
and the TypeError JavaScript raises when a stored non-callable value is
invoked. -/
inductive JSError where
  | invalidEffectReturn : String → JSError
  | inconsistentDeps : JSError
  | arityMismatch : JSError
  | notAFunction : JSValue → JSError
deriving DecidableEq, Repr

/-- Observable events: `run` is one execution of a side-effect function's
body, `call v` is one invocation of a stored destroyer value `v`. -/
inductive Event where
  | run : Event
  | call : JSValue → Event
deriving DecidableEq, Repr

/-- The `destroyers` field of a `Pedlar` instance: an insertion-ordered
association list from id to the stored destroyer value. -/
abbrev Registry := List (Nat × JSValue)

/-- Property read `this.destroyers[id]`: the stored value, or `undefined`
when the key is missing. -/
def lookup (reg : Registry) (id : Nat) : JSValue :=
  match reg.find? (fun p => p.1 == id) with
  | some p => p.2
  | none => .undefined

/-- The statement `delete this.destroyers[id]`. -/
def eraseKey (reg : Registry) (id : Nat) : Registry :=
  reg.filter (fun p => p.1 != id)

/-- The assignment `this.destroyers[id] = v`: update in place when the key
exists, append otherwise. -/
def setKey (reg : Registry) (id : Nat) (v : JSValue) : Registry :=
  if reg.any (fun p => p.1 == id) then
    reg.map (fun p => if p.1 == id then (id, v) else p)
  else reg ++ [(id, v)]

/-- The state of one `Pedlar` instance, together with the id source and the
observation trace (events appended at the end, oldest first). -/
structure PState where
  destroyers : Registry
  nextId : Nat
  trace : List Event
deriving DecidableEq, Repr

/-- The state `new Pedlar()` starts from. -/
def initState : PState := { destroyers := [], nextId := 0, trace := [] }

/-- The mutable handle object `Pedlar.create` returns: `id` is `null` until
the first `perform`, `dependencies` is the stored snapshot (`none` models
`undefined`), and `runs` counts invocations of this handle's side-effect
closure. -/
structure Handle where
  id : Option Nat
  dependencies : Option (List JSValue)
  runs : Nat
deriving DecidableEq, Repr

/-- The handle as `Pedlar.create` builds it (`id: null`, no snapshot, the
side effect not yet run). -/
def createHandle : Handle := { id := none, dependencies := none, runs := 0 }

/-- The function `validateDestroyer` from pedlar.ts: accept a function, otherwise throw
the invalid-effect-return error carrying the value's typeof. -/
def validateDestroyer (destroyer : JSValue) : Except JSError Unit :=
  match destroyer with
  | .func _ => .ok ()
  | v => .error (.invalidEffectReturn (jsTypeof v))

/-- The index loop of `dependenciesChanged`: walk both arrays in step and
report `true` at the first index whose values are not strictly equal,
`false` when the walk finishes.  Only reached with arrays of equal length. -/
def depsDifferAt : List JSValue → List JSValue → Bool
  | oldValue :: oldRest, newValue :: newRest =>
      if strictEq oldValue newValue then depsDifferAt oldRest newRest else true
  | _, _ => false

/-- The function `dependenciesChanged` from pedlar.ts.  `none` models an absent
(`undefined`) argument; a present array is always truthy, so the source's
falsy tests `!oldDependencies` / `!newDependencies` test for absence.
Both absent: rerun.  Exactly one absent: throw the inconsistent-usage
error.  Different lengths: throw the arity error.  Otherwise compare
index by index with `===`. -/
def dependenciesChanged (oldDependencies newDependencies : Option (List JSValue)) :
    Except JSError Bool :=
  match oldDependencies, newDependencies with
  | none, none => .ok true
  | none, some _ => .error .inconsistentDeps
  | some _, none => .error .inconsistentDeps
  | some o, some n =>
      if o.length != n.length then .error .arityMismatch
      else .ok (depsDifferAt o n)

/-- The method `Pedlar.destroy` from pedlar.ts: read `this.destroyers[id]`; when the
value is falsy return at once; otherwise invoke it (a TypeError when the
stored value is truthy yet not callable — no mutation has happened at that
throw) and then delete the key. -/
def destroy (s : PState) (id : Nat) : Except (JSError × PState) PState :=
  let destroyer := lookup s.destroyers id
  if truthy destroyer then
    match destroyer with
    | .func r =>
        .ok { s with destroyers := eraseKey s.destroyers id,
                     trace := s.trace ++ [Event.call (.func r)] }
    | v => .error (.notAFunction v, s)
  else .ok s

/-- The body of `Object.keys(this.destroyers).forEach(this.destroy, this)`:
destroy each key of the snapshot in order; an exception aborts the loop
and propagates, keeping the mutations already made. -/
def destroyKeys : List Nat → PState → Except (JSError × PState) PState
  | [], s => .ok s
  | k :: ks, s =>
      match destroy s k with
      | .ok s2 => destroyKeys ks s2
      | .error e => .error e

/-- The method `Pedlar.destroyAll` from pedlar.ts: snapshot the keys, then destroy
each in turn. -/
def destroyAll (s : PState) : Except (JSError × PState) PState :=
  destroyKeys (s.destroyers.map Prod.fst) s

/-- The `perform` method of the handle object built by `Pedlar.create`.
`sideEffect` is the captured closure, scripted by invocation count: its
`n`-th call returns `sideEffect n`.  First call (`id` still `null`):
assign a fresh id and the snapshot, run the side effect, and when its
return value is neither `undefined` nor `null`, validate it (the throw
keeps the id, snapshot and run already in place) and store it under the
new id.  Later calls: consult `dependenciesChanged` (its throw mutates
nothing); when nothing changed return; otherwise store the new snapshot,
and either invoke the current destroyer, re-run the side effect and store
its raw return value under the same id, or — when no truthy destroyer is
stored — just re-run the side effect, ignoring its return value. -/
def performEffect (sideEffect : Nat → JSValue) (h : Handle) (s : PState)
    (currentDependencies : Option (List JSValue)) :
    Except (JSError × Handle × PState) (Handle × PState) :=
  match h.id with
  | none =>
      let h1 : Handle :=
        { id := some s.nextId, dependencies := currentDependencies, runs := h.runs + 1 }
      let s1 : PState := { s with nextId := s.nextId + 1, trace := s.trace ++ [Event.run] }
      match sideEffect h.runs with
      | .undefined => .ok (h1, s1)
      | .null => .ok (h1, s1)
      | v =>
          match validateDestroyer v with
          | .error e => .error (e, h1, s1)
          | .ok _ => .ok (h1, { s1 with destroyers := setKey s1.destroyers s.nextId v })
  | some i =>
      match dependenciesChanged h.dependencies currentDependencies with
      | .error e => .error (e, h, s)
      | .ok false => .ok (h, s)
      | .ok true =>
          let h1 : Handle := { h with dependencies := currentDependencies }
          let currentDestroyer := lookup s.destroyers i
          if truthy currentDestroyer then
            match currentDestroyer with
            | .func r =>
                let s1 : PState := { s with trace := s.trace ++ [Event.call (.func r)] }
                .ok ({ h1 with runs := h.runs + 1 },
                     { s1 with trace := s1.trace ++ [Event.run],
                               destroyers := setKey s1.destroyers i (sideEffect h.runs) })
            | v => .error (.notAFunction v, h1, s)
          else
            .ok ({ h1 with runs := h.runs + 1 },
                 { s with trace := s.trace ++ [Event.run] })

/-- The method `Pedlar.perform` from pedlar.ts: build the handle with `Pedlar.create`
and invoke its `perform` once with the given dependencies. -/
def pedlarPerform (sideEffect : Nat → JSValue) (dependencies : Option (List JSValue))
    (s : PState) : Except (JSError × Handle × PState) (Handle × PState) :=
  performEffect sideEffect createHandle s dependencies

/-- Iterated reinvocation: `k` successive calls of the handle's `perform` with the same
dependency argument; an exception aborts the sequence. -/
def performN (sideEffect : Nat → JSValue) (d : Option (List JSValue)) :
    Nat → Handle → PState → Except (JSError × Handle × PState) (Handle × PState)
  | 0, h, s => .ok (h, s)
  | k + 1, h, s =>
      match performEffect sideEffect h s d with
      | .ok (h2, s2) => performN sideEffect d k h2 s2
      | .error e => .error e

/-! Helper lemmas about the comparator loop and the registry. -/

/-- The comparator loop reports "unchanged" exactly when the two
equal-length arrays are element-wise strictly equal. -/
theorem depsDifferAt_eq_false_iff :
    ∀ o n : List JSValue, o.length = n.length →
      (depsDifferAt o n = false ↔ List.Forall₂ (fun a b => strictEq a b = true) o n)
  | [], [], _ => by simp [depsDifferAt]
  | [], _ :: _, h => by simp at h
  | _ :: _, [], h => by simp at h
  | a :: as, b :: bs, h => by
      by_cases hab : strictEq a b = true
      · simpa [depsDifferAt, hab] using
          depsDifferAt_eq_false_iff as bs (by simpa using h)
      · simp [depsDifferAt, hab]

/-- After `delete this.destroyers[id]`, reading `id` yields `undefined`. -/
theorem lookup_eraseKey (reg : Registry) (id : Nat) :
    lookup (eraseKey reg id) id = JSValue.undefined := by
  have : (eraseKey reg id).find? (fun p => p.1 == id) = none := by
    rw [List.find?_eq_none]
    intro p hp
    have := List.of_mem_filter hp
    simpa using this
  simp [lookup, this]

/-- Assigning an id no current entry carries appends a fresh entry. -/
theorem setKey_of_forall_ne (reg : Registry) (id : Nat) (v : JSValue)
    (hid : ∀ p ∈ reg, p.1 ≠ id) : setKey reg id v = reg ++ [(id, v)] := by
  have : reg.any (fun p => p.1 == id) = false := by
    rw [List.any_eq_false]
    intro p hp
    simpa using hid p hp
  simp [setKey, this]

/-- In the update-in-place branch of `setKey`, the mapped list's first
entry whose key matches is the freshly assigned pair. -/
theorem find?_setKey_map (id : Nat) (v : JSValue) :
    ∀ reg : Registry, reg.any (fun p => p.1 == id) = true →
      (reg.map (fun p => if p.1 == id then ((id, v) : Nat × JSValue) else p)).find?
          (fun p => p.1 == id) = some (id, v)
  | [], h => by simp at h
  | q :: rest, h => by
      rw [List.map_cons]
      by_cases hq : (q.1 == id) = true
      · rw [if_pos hq]
        exact List.find?_cons_of_pos _ (by simp)
      · rw [if_neg hq]
        have hcons : List.find? (fun p : Nat × JSValue => p.1 == id)
            (q :: rest.map (fun p => if (p.1 == id) = true then ((id, v) : Nat × JSValue) else p))
            = List.find? (fun p : Nat × JSValue => p.1 == id)
              (rest.map (fun p => if (p.1 == id) = true then ((id, v) : Nat × JSValue) else p)) :=
          List.find?_cons_of_neg _ hq
        exact hcons.trans (find?_setKey_map id v rest (by simpa [hq] using h))

/-- Reading back the id just assigned yields the assigned value. -/
theorem lookup_setKey_self (reg : Registry) (id : Nat) (v : JSValue) :
    lookup (setKey reg id v) id = v := by
  by_cases hany : reg.any (fun p => p.1 == id) = true
  · unfold lookup setKey
    rw [if_pos hany, find?_setKey_map id v reg hany]
  · have h1 : reg.find? (fun p => p.1 == id) = none := by
      rw [List.find?_eq_none]
      intro p hp hcontra
      exact absurd (List.any_eq_true.mpr ⟨p, hp, hcontra⟩) hany
    have h2 : (reg ++ [(id, v)]).find? (fun p => p.1 == id) = some (id, v) := by
      rw [List.find?_append, h1]
      simp
    unfold lookup setKey
    rw [if_neg hany, h2]

/-! Claim theorems. -/

/-- C4: the comparator's decision follows this policy in order: both
snapshots absent decides rerun = true unconditionally; exactly one absent
fails with the inconsistent-dependency-usage error; both present with
different lengths fails with the dependency-arity-mismatch error; and in
every remaining case (both present, equal length) it does not fail but
returns the element-wise comparison. -/
theorem comparator_policy_cases :
    dependenciesChanged none none = Except.ok true
    ∧ (∀ l : List JSValue,
        dependenciesChanged none (some l) = Except.error JSError.inconsistentDeps)
    ∧ (∀ l : List JSValue,
        dependenciesChanged (some l) none = Except.error JSError.inconsistentDeps)
    ∧ (∀ o n : List JSValue, o.length ≠ n.length →
        dependenciesChanged (some o) (some n) = Except.error JSError.arityMismatch)
    ∧ (∀ o n : List JSValue, o.length = n.length →
        dependenciesChanged (some o) (some n) = Except.ok (depsDifferAt o n)) := by
  refine ⟨rfl, fun l => rfl, fun l => rfl, fun o n hne => ?_, fun o n he => ?_⟩
  · simp [dependenciesChanged, hne]
  · simp [dependenciesChanged, he]

/-- Witness for C4 at concrete inputs: a length-1 versus length-0 pair hits
the arity error, and equal-length pairs never fail. -/
theorem comparator_policy_cases_witness :
    dependenciesChanged (some [JSValue.num 1]) (some [])
        = Except.error JSError.arityMismatch
    ∧ dependenciesChanged (some [JSValue.num 1]) (some [JSValue.num 2])
        = Except.ok (depsDifferAt [JSValue.num 1] [JSValue.num 2]) :=
  ⟨comparator_policy_cases.2.2.2.1 [JSValue.num 1] [] (by decide),
   comparator_policy_cases.2.2.2.2 [JSValue.num 1] [JSValue.num 2] rfl⟩

/-- C3: for present snapshots of equal length the comparator decides
rerun = false exactly when every index pair is strictly equal (so a type
change or a distinct object reference counts as changed); consequently a
live handle's `perform` with an unchanged snapshot returns without
re-running the side effect, and with any changed element it re-runs the
side effect (given the registry invariant that a truthy stored destroyer
is a function). -/
theorem comparator_strict_elementwise_and_rerun
    (o n : List JSValue) (se : Nat → JSValue) (h : Handle) (s : PState) (i : Nat)
    (hlen : o.length = n.length) (hid : h.id = some i)
    (hdeps : h.dependencies = some o)
    (hwf : truthy (lookup s.destroyers i) = true →
      ∃ r, lookup s.destroyers i = JSValue.func r) :
    (dependenciesChanged (some o) (some n) = Except.ok false
        ↔ List.Forall₂ (fun a b => strictEq a b = true) o n)
    ∧ (depsDifferAt o n = false → performEffect se h s (some n) = Except.ok (h, s))
    ∧ (depsDifferAt o n = true →
        ∃ h2 s2 pre, performEffect se h s (some n) = Except.ok (h2, s2)
          ∧ h2.runs = h.runs + 1
          ∧ s2.trace = s.trace ++ pre ++ [Event.run]) := by
  refine ⟨?_, ?_, ?_⟩
  · rw [show dependenciesChanged (some o) (some n) = Except.ok (depsDifferAt o n) by
      simp [dependenciesChanged, hlen]]
    simpa using depsDifferAt_eq_false_iff o n hlen
  · intro hfalse
    simp [performEffect, hid, hdeps, dependenciesChanged, hlen, hfalse]
  · intro htrue
    by_cases htr : truthy (lookup s.destroyers i) = true
    · obtain ⟨r, hr⟩ := hwf htr
      refine ⟨{ h with dependencies := some n, runs := h.runs + 1 },
        { s with trace := s.trace ++ ([Event.call (JSValue.func r)] ++ [Event.run]),
                 destroyers := setKey s.destroyers i (se h.runs) },
        [Event.call (JSValue.func r)], ?_, rfl, by simp⟩
      simp [performEffect, hid, hdeps, dependenciesChanged, hlen, htrue, hr, truthy]
    · refine ⟨{ h with dependencies := some n, runs := h.runs + 1 },
        { s with trace := s.trace ++ [Event.run] }, [], ?_, rfl, by simp⟩
      simp only [Bool.not_eq_true] at htr
      simp [performEffect, hid, hdeps, dependenciesChanged, hlen, htrue, htr]

/-- Witness for C3 at concrete inputs: a handle holding snapshot `[1]`
does not re-run on `perform([1])`, and the comparator on `[1]`/`[1]`
decides rerun = false. -/
theorem comparator_strict_elementwise_and_rerun_witness :
    performEffect (fun _ => JSValue.undefined)
        { id := some 0, dependencies := some [JSValue.num 1], runs := 1 }
        initState (some [JSValue.num 1])
      = Except.ok ({ id := some 0, dependencies := some [JSValue.num 1], runs := 1 },
          initState)
    ∧ (dependenciesChanged (some [JSValue.num 1]) (some [JSValue.num 1])
        = Except.ok false
        ↔ List.Forall₂ (fun a b => strictEq a b = true)
            [JSValue.num 1] [JSValue.num 1]) := by
  have h := comparator_strict_elementwise_and_rerun [JSValue.num 1] [JSValue.num 1]
    (fun _ => JSValue.undefined)
    { id := some 0, dependencies := some [JSValue.num 1], runs := 1 }
    initState 0 rfl rfl rfl (by intro htr; exact absurd htr (by decide))
  exact ⟨h.2.1 rfl, h.1⟩

/-- C9: when a reinvocation decides rerun = true on an id owning a stored
cleanup, the trace extends by the cleanup invocation event and then the
run event, in that order — the old teardown completes strictly before the
new setup begins. -/
theorem cleanup_before_setup_order
    (se : Nat → JSValue) (h : Handle) (s : PState) (i r : Nat)
    (d : Option (List JSValue)) (hid : h.id = some i)
    (hchanged : dependenciesChanged h.dependencies d = Except.ok true)
    (hstore : lookup s.destroyers i = JSValue.func r) :
    performEffect se h s d
      = Except.ok ({ h with dependencies := d, runs := h.runs + 1 },
          { s with trace := s.trace ++ [Event.call (JSValue.func r), Event.run],
                   destroyers := setKey s.destroyers i (se h.runs) }) := by
  simp [performEffect, hid, hchanged, hstore, truthy]

/-- Witness for C9 at a concrete input: a stored cleanup and a changed
dependency produce the trace extension `[call, run]`. -/
theorem cleanup_before_setup_order_witness :
    performEffect (fun _ => JSValue.undefined)
        { id := some 0, dependencies := some [JSValue.num 1], runs := 1 }
        { destroyers := [(0, JSValue.func 0)], nextId := 1, trace := [Event.run] }
        (some [JSValue.num 2])
      = Except.ok ({ id := some 0, dependencies := some [JSValue.num 2], runs := 2 },
          { destroyers := [(0, JSValue.undefined)], nextId := 1,
            trace := [Event.run, Event.call (JSValue.func 0), Event.run] }) := by
  exact cleanup_before_setup_order (fun _ => JSValue.undefined)
    { id := some 0, dependencies := some [JSValue.num 1], runs := 1 }
    { destroyers := [(0, JSValue.func 0)], nextId := 1, trace := [Event.run] }
    0 0 (some [JSValue.num 2]) rfl rfl rfl

/-- C2 (amended): a reinvocation that decides rerun = true on an id owning
a stored cleanup invokes that cleanup, re-runs the effect function, and
stores the raw return value under the same id with no return-value
validation: a non-absent non-callable return is stored silently instead of
raising the invalid-effect-return error, and an absent return leaves the
key present holding `undefined` (from then on treated as "no cleanup")
instead of removing the entry. -/
theorem rerun_with_cleanup_characterization
    (se : Nat → JSValue) (h : Handle) (s : PState) (i r : Nat)
    (d : Option (List JSValue)) (hid : h.id = some i)
    (hchanged : dependenciesChanged h.dependencies d = Except.ok true)
    (hstore : lookup s.destroyers i = JSValue.func r) :
    performEffect se h s d
      = Except.ok ({ h with dependencies := d, runs := h.runs + 1 },
          { s with trace := s.trace ++ [Event.call (JSValue.func r), Event.run],
                   destroyers := setKey s.destroyers i (se h.runs) })
    ∧ lookup (setKey s.destroyers i (se h.runs)) i = se h.runs :=
  ⟨by simp [performEffect, hid, hchanged, hstore, truthy],
   lookup_setKey_self s.destroyers i (se h.runs)⟩

/-- C2 counterexample: from the reachable state after
`pedlarPerform` with a cleanup-returning effect and snapshot `[1]` (third
conjunct), reinvoking with `[2]` while the side effect now returns the
number `5` raises nothing and stores `5` under the id (first conjunct,
against "applies the same return-value validation ... raising
InvalidEffectReturn for a non-absent non-callable value"), and while it
now returns `undefined` the id's entry is kept with value `undefined`
rather than removed (second conjunct, against "removing the entry when the
return is absent"). -/
theorem rerun_return_not_validated_and_entry_kept :
    performEffect (fun n => if n == 0 then JSValue.func 0 else JSValue.num 5)
        { id := some 0, dependencies := some [JSValue.num 1], runs := 1 }
        { destroyers := [(0, JSValue.func 0)], nextId := 1, trace := [Event.run] }
        (some [JSValue.num 2])
      = Except.ok ({ id := some 0, dependencies := some [JSValue.num 2], runs := 2 },
          { destroyers := [(0, JSValue.num 5)], nextId := 1,
            trace := [Event.run, Event.call (JSValue.func 0), Event.run] })
    ∧ performEffect (fun n => if n == 0 then JSValue.func 0 else JSValue.undefined)
        { id := some 0, dependencies := some [JSValue.num 1], runs := 1 }
        { destroyers := [(0, JSValue.func 0)], nextId := 1, trace := [Event.run] }
        (some [JSValue.num 2])
      = Except.ok ({ id := some 0, dependencies := some [JSValue.num 2], runs := 2 },
          { destroyers := [(0, JSValue.undefined)], nextId := 1,
            trace := [Event.run, Event.call (JSValue.func 0), Event.run] })
    ∧ pedlarPerform (fun n => if n == 0 then JSValue.func 0 else JSValue.num 5)
        (some [JSValue.num 1]) initState
      = Except.ok ({ id := some 0, dependencies := some [JSValue.num 1], runs := 1 },
          { destroyers := [(0, JSValue.func 0)], nextId := 1, trace := [Event.run] }) :=
  ⟨rfl, rfl, rfl⟩

/-- Witness for C2's amended theorem at a concrete input. -/
theorem rerun_with_cleanup_characterization_witness :
    performEffect (fun _ => JSValue.num 5)
        { id := some 0, dependencies := some [JSValue.num 1], runs := 1 }
        { destroyers := [(0, JSValue.func 0)], nextId := 1, trace := [Event.run] }
        (some [JSValue.num 2])
      = Except.ok ({ id := some 0, dependencies := some [JSValue.num 2], runs := 2 },
          { destroyers := [(0, JSValue.num 5)], nextId := 1,
            trace := [Event.run, Event.call (JSValue.func 0), Event.run] })
    ∧ lookup [(0, JSValue.num 5)] 0 = JSValue.num 5 := by
  exact rerun_with_cleanup_characterization (fun _ => JSValue.num 5)
    { id := some 0, dependencies := some [JSValue.num 1], runs := 1 }
    { destroyers := [(0, JSValue.func 0)], nextId := 1, trace := [Event.run] }
    0 0 (some [JSValue.num 2]) rfl rfl rfl

/-- C1 (amended): once the id's registry entry is gone (as after destroy
or destroyAll), reinvocation never touches the registry and never invokes
or stores a cleanup; but the handle is not inert: comparator failures
still propagate to the caller, and when the comparator decides
rerun = true the side effect function runs again, its return value
ignored. -/
theorem perform_after_destroy_characterization
    (se : Nat → JSValue) (h : Handle) (s : PState) (i : Nat)
    (d : Option (List JSValue)) (hid : h.id = some i)
    (hgone : lookup s.destroyers i = JSValue.undefined) :
    (∀ e, dependenciesChanged h.dependencies d = Except.error e →
        performEffect se h s d = Except.error (e, h, s))
    ∧ (dependenciesChanged h.dependencies d = Except.ok false →
        performEffect se h s d = Except.ok (h, s))
    ∧ (dependenciesChanged h.dependencies d = Except.ok true →
        performEffect se h s d
          = Except.ok ({ h with dependencies := d, runs := h.runs + 1 },
              { s with trace := s.trace ++ [Event.run] })) := by
  refine ⟨fun e he => ?_, fun hf => ?_, fun ht => ?_⟩
  · simp [performEffect, hid, he]
  · simp [performEffect, hid, hf]
  · simp [performEffect, hid, ht, hgone, truthy]

/-- C1 counterexample: an effect registered without dependencies and then
destroyed (first two conjuncts) is re-run by a later `perform` — the run
count goes from 1 to 2 and a second run event appears (third conjunct),
against "never re-runs the effect"; and an effect registered with snapshot
`[1]` and then destroyed raises the inconsistent-dependency error when
re-invoked without a snapshot (last two conjuncts), against "never raises
an error ... for every dependency snapshot argument". -/
theorem perform_after_destroy_reruns_and_can_raise :
    pedlarPerform (fun _ => JSValue.func 0) none initState
      = Except.ok ({ id := some 0, dependencies := none, runs := 1 },
          { destroyers := [(0, JSValue.func 0)], nextId := 1, trace := [Event.run] })
    ∧ destroy { destroyers := [(0, JSValue.func 0)], nextId := 1, trace := [Event.run] } 0
      = Except.ok
          { destroyers := [], nextId := 1,
            trace := [Event.run, Event.call (JSValue.func 0)] }
    ∧ performEffect (fun _ => JSValue.func 0)
        { id := some 0, dependencies := none, runs := 1 }
        { destroyers := [], nextId := 1, trace := [Event.run, Event.call (JSValue.func 0)] }
        none
      = Except.ok ({ id := some 0, dependencies := none, runs := 2 },
          { destroyers := [], nextId := 1,
              trace := [Event.run, Event.call (JSValue.func 0), Event.run] })
    ∧ pedlarPerform (fun _ => JSValue.func 0) (some [JSValue.num 1]) initState
      = Except.ok ({ id := some 0, dependencies := some [JSValue.num 1], runs := 1 },
          { destroyers := [(0, JSValue.func 0)], nextId := 1, trace := [Event.run] })
    ∧ performEffect (fun _ => JSValue.func 0)
        { id := some 0, dependencies := some [JSValue.num 1], runs := 1 }
        { destroyers := [], nextId := 1, trace := [Event.run, Event.call (JSValue.func 0)] }
        none
      = Except.error (JSError.inconsistentDeps,
          { id := some 0, dependencies := some [JSValue.num 1], runs := 1 },
          { destroyers := [], nextId := 1,
              trace := [Event.run, Event.call (JSValue.func 0)] }) :=
  ⟨rfl, rfl, rfl, rfl, rfl⟩

/-- Witness for C1's amended theorem at a concrete input: a destroyed id,
absent dependencies on both calls, the side effect runs again. -/
theorem perform_after_destroy_characterization_witness :
    performEffect (fun _ => JSValue.func 0)
        { id := some 0, dependencies := none, runs := 1 }
        { destroyers := [], nextId := 1, trace := [] } none
      = Except.ok ({ id := some 0, dependencies := none, runs := 2 },
          { destroyers := [], nextId := 1, trace := [Event.run] }) := by
  exact (perform_after_destroy_characterization (fun _ => JSValue.func 0)
    { id := some 0, dependencies := none, runs := 1 }
    { destroyers := [], nextId := 1, trace := [] } 0 none rfl rfl).2.2 rfl

/-- C7 (amended): a first run whose side effect returns a value that is
neither absent nor callable raises the invalid-effect-return error
synchronously and creates no registry entry; however, the fresh id, the
new dependency snapshot and the effect's run are already in place on the
handle at the moment the error is raised. -/
theorem invalid_return_error_state
    (se : Nat → JSValue) (h : Handle) (s : PState) (d : Option (List JSValue))
    (hfirst : h.id = none)
    (hnotabsent : se h.runs ≠ JSValue.undefined) (hnotnull : se h.runs ≠ JSValue.null)
    (hnotfun : ∀ r, se h.runs ≠ JSValue.func r) :
    performEffect se h s d
      = Except.error (JSError.invalidEffectReturn (jsTypeof (se h.runs)),
          { id := some s.nextId, dependencies := d, runs := h.runs + 1 },
          { s with nextId := s.nextId + 1, trace := s.trace ++ [Event.run] }) := by
  rcases hv : se h.runs with _ | _ | b | m | t | ob | fr
  · exact absurd hv hnotabsent
  · exact absurd hv hnotnull
  · simp [performEffect, hfirst, hv, validateDestroyer, jsTypeof]
  · simp [performEffect, hfirst, hv, validateDestroyer, jsTypeof]
  · simp [performEffect, hfirst, hv, validateDestroyer, jsTypeof]
  · simp [performEffect, hfirst, hv, validateDestroyer, jsTypeof]
  · exact absurd hv (hnotfun fr)

/-- C7 counterexample: a first `perform` whose effect returns the number
`4` raises the invalid-effect-return error while the registry stays empty,
but the error state shows the handle already mutated: its id went from
`null` to the fresh id 0 and its stored snapshot from absent to `[1]` —
against "the handle's id and stored snapshot are unchanged" at the moment
the error is raised. -/
theorem invalid_return_mutates_handle_before_throw :
    performEffect (fun _ => JSValue.num 4) createHandle initState (some [JSValue.num 1])
      = Except.error (JSError.invalidEffectReturn "number",
          { id := some 0, dependencies := some [JSValue.num 1], runs := 1 },
          { destroyers := [], nextId := 1, trace := [Event.run] })
    ∧ createHandle.id = none ∧ createHandle.dependencies = none :=
  ⟨rfl, rfl, rfl⟩

/-- Witness for C7's amended theorem at a concrete input: an effect
returning the string "zach". -/
theorem invalid_return_error_state_witness :
    performEffect (fun _ => JSValue.str "zach") createHandle initState none
      = Except.error (JSError.invalidEffectReturn "string",
          { id := some 0, dependencies := none, runs := 1 },
          { destroyers := [], nextId := 1, trace := [Event.run] }) := by
  exact invalid_return_error_state (fun _ => JSValue.str "zach") createHandle initState none
    rfl (fun hc => JSValue.noConfusion hc) (fun hc => JSValue.noConfusion hc)
    (fun r hc => JSValue.noConfusion hc)

/-- C6: destroy on an id with no stored entry is a silent no-op — unknown
and already-destroyed ids never raise, so destruction is idempotent —
while destroy on an id owning a stored cleanup invokes exactly that
cleanup once (exactly one call event is appended, before the call
returns), removes the entry, and a second destroy of the same id is then
a no-op on the resulting state. -/
theorem destroy_noop_absent_and_present_behavior (s : PState) (id : Nat) :
    (lookup s.destroyers id = JSValue.undefined → destroy s id = Except.ok s)
    ∧ (∀ r, lookup s.destroyers id = JSValue.func r →
        destroy s id = Except.ok
          { s with destroyers := eraseKey s.destroyers id,
                   trace := s.trace ++ [Event.call (JSValue.func r)] }
        ∧ lookup (eraseKey s.destroyers id) id = JSValue.undefined
        ∧ destroy { s with destroyers := eraseKey s.destroyers id,
                           trace := s.trace ++ [Event.call (JSValue.func r)] } id
          = Except.ok { s with destroyers := eraseKey s.destroyers id,
                               trace := s.trace ++ [Event.call (JSValue.func r)] }) := by
  constructor
  · intro hu
    simp [destroy, hu, truthy]
  · intro r hr
    refine ⟨by simp [destroy, hr, truthy], lookup_eraseKey _ _, ?_⟩
    simp [destroy, lookup_eraseKey, truthy]

/-- Witness for C6 at concrete inputs: destroying id 5 runs its cleanup
and empties the registry; destroying the unknown id 9 is a no-op. -/
theorem destroy_noop_absent_and_present_behavior_witness :
    destroy { destroyers := [(5, JSValue.func 7)], nextId := 6, trace := [] } 5
      = Except.ok
          { destroyers := [], nextId := 6, trace := [Event.call (JSValue.func 7)] }
    ∧ destroy { destroyers := [(5, JSValue.func 7)], nextId := 6, trace := [] } 9
      = Except.ok { destroyers := [(5, JSValue.func 7)], nextId := 6, trace := [] } := by
  have h5 := destroy_noop_absent_and_present_behavior
    { destroyers := [(5, JSValue.func 7)], nextId := 6, trace := [] } 5
  have h9 := destroy_noop_absent_and_present_behavior
    { destroyers := [(5, JSValue.func 7)], nextId := 6, trace := [] } 9
  exact ⟨by exact (h5.2 7 rfl).1, h9.1 rfl⟩

/-- The loop of destroyAll over a snapshot of the keys: on a registry with
distinct keys whose entries all hold functions, every entry's cleanup is
called once, in registry order, and the registry is left empty. -/
theorem destroyKeys_all :
    ∀ (reg : Registry) (s : PState), s.destroyers = reg →
      (reg.map Prod.fst).Nodup →
      (∀ p ∈ reg, ∃ r, p.2 = JSValue.func r) →
      destroyKeys (reg.map Prod.fst) s
        = Except.ok { s with destroyers := [],
                             trace := s.trace ++ reg.map (fun p => Event.call p.2) }
  | [], s, hs, _, _ => by
      cases s
      simp only [PState.mk.injEq] at hs ⊢
      subst hs
      simp [destroyKeys]
  | (k, v) :: rest, s, hs, hnodup, hwf => by
      obtain ⟨r, hr⟩ := hwf (k, v) (List.mem_cons_self _ _)
      simp only at hr
      subst hr
      have hnodup2 : (k :: rest.map Prod.fst).Nodup := by
        simpa only [List.map_cons] using hnodup
      have hsplit := List.nodup_cons.mp hnodup2
      have hk : lookup s.destroyers k = JSValue.func r := by
        rw [hs]
        have hfind : List.find? (fun p : Nat × JSValue => p.1 == k)
            ((k, JSValue.func r) :: rest) = some (k, JSValue.func r) :=
          List.find?_cons_of_pos _ (by simp)
        simp [lookup, hfind]
      have herase : eraseKey s.destroyers k = rest := by
        rw [hs]
        have hrest : ∀ p ∈ rest, (p.1 != k) = true := by
          intro p hp
          have hmem : p.1 ∈ rest.map Prod.fst := List.mem_map_of_mem _ hp
          simp only [bne_iff_ne, ne_eq]
          intro hc
          exact hsplit.1 (hc ▸ hmem)
        simp [eraseKey, List.filter_cons, List.filter_eq_self.mpr hrest]
      have hdestroy : destroy s k = Except.ok
          { s with destroyers := rest,
                   trace := s.trace ++ [Event.call (JSValue.func r)] } := by
        simp [destroy, hk, truthy, herase]
      have hIH := destroyKeys_all rest
        { s with destroyers := rest,
                 trace := s.trace ++ [Event.call (JSValue.func r)] }
        rfl hsplit.2 (fun p hp => hwf p (List.mem_cons_of_mem _ hp))
      rw [List.map_cons]
      show destroyKeys (k :: rest.map Prod.fst) s = _
      simp only [destroyKeys, hdestroy, hIH]
      simp

/-- C5: on a registry holding the cleanups the data model prescribes (a
function value per live id, keys distinct), destroyAll returns normally,
invokes each stored cleanup exactly once — the trace extends by exactly
one call event per entry, in registry order — and leaves the registry
empty; on an already-empty registry it is a no-op that never raises, so
repeated calls are safe. -/
theorem destroyAll_runs_each_cleanup_once_and_empties
    (s : PState)
    (hnodup : (s.destroyers.map Prod.fst).Nodup)
    (hwf : ∀ p ∈ s.destroyers, ∃ r, p.2 = JSValue.func r) :
    destroyAll s = Except.ok
      { s with destroyers := [],
               trace := s.trace ++ s.destroyers.map (fun p => Event.call p.2) }
    ∧ (s.destroyers = [] → destroyAll s = Except.ok s)
    ∧ destroyAll { s with destroyers := [],
                          trace := s.trace ++ s.destroyers.map (fun p => Event.call p.2) }
      = Except.ok { s with destroyers := [],
                           trace := s.trace ++ s.destroyers.map (fun p => Event.call p.2) } := by
  refine ⟨destroyKeys_all s.destroyers s rfl hnodup hwf, ?_, rfl⟩
  intro hempty
  cases s
  simp only [PState.mk.injEq] at hempty ⊢
  subst hempty
  simp [destroyAll, destroyKeys]

/-- Witness for C5 at a concrete input: two live effects, both cleanups
called once each, registry empty afterwards. -/
theorem destroyAll_runs_each_cleanup_once_and_empties_witness :
    destroyAll
        { destroyers := [(0, JSValue.func 3), (1, JSValue.func 4)], nextId := 2,
          trace := [] }
      = Except.ok
          { destroyers := [], nextId := 2,
            trace := [Event.call (JSValue.func 3), Event.call (JSValue.func 4)] } := by
  exact (destroyAll_runs_each_cleanup_once_and_empties
    { destroyers := [(0, JSValue.func 3), (1, JSValue.func 4)], nextId := 2,
      trace := [] }
    (by decide)
    (by
      intro p hp
      rcases List.mem_cons.mp hp with h | hp2
      · exact ⟨3, by rw [h]⟩
      · rcases List.mem_cons.mp hp2 with h | h
        · exact ⟨4, by rw [h]⟩
        · simp at h)).1

/-- C8: with a valid first return value, registration assigns the handle a
fresh id — one no current registry entry uses, by the counter invariant
that every stored key is below `nextId` — and returns it whether or not a
cleanup was produced; a produced cleanup is stored under that id as a new
entry, and an absent return creates no entry. -/
theorem register_fresh_id_and_storage
    (se : Nat → JSValue) (d : Option (List JSValue)) (s : PState)
    (hfresh : ∀ p ∈ s.destroyers, p.1 < s.nextId) :
    (∀ p ∈ s.destroyers, p.1 ≠ s.nextId)
    ∧ (∀ r, se 0 = JSValue.func r →
        pedlarPerform se d s = Except.ok
          ({ id := some s.nextId, dependencies := d, runs := 1 },
           { s with nextId := s.nextId + 1, trace := s.trace ++ [Event.run],
                    destroyers := s.destroyers ++ [(s.nextId, JSValue.func r)] }))
    ∧ ((se 0 = JSValue.undefined ∨ se 0 = JSValue.null) →
        pedlarPerform se d s = Except.ok
          ({ id := some s.nextId, dependencies := d, runs := 1 },
           { s with nextId := s.nextId + 1, trace := s.trace ++ [Event.run] })) := by
  have hne : ∀ p ∈ s.destroyers, p.1 ≠ s.nextId :=
    fun p hp => Nat.ne_of_lt (hfresh p hp)
  refine ⟨hne, fun r hr => ?_, fun habs => ?_⟩
  · have hset := setKey_of_forall_ne s.destroyers s.nextId (JSValue.func r) hne
    simp [pedlarPerform, performEffect, createHandle, hr, validateDestroyer, hset]
  · rcases habs with hu | hn
    · simp [pedlarPerform, performEffect, createHandle, hu]
    · simp [pedlarPerform, performEffect, createHandle, hn]

/-- Witness for C8 at a concrete input: with id 0 live, registration hands
out the fresh id 1 and appends the new cleanup under it. -/
theorem register_fresh_id_and_storage_witness :
    pedlarPerform (fun _ => JSValue.func 9) none
        { destroyers := [(0, JSValue.func 0)], nextId := 1, trace := [] }
      = Except.ok
          ({ id := some 1, dependencies := none, runs := 1 },
           { destroyers := [(0, JSValue.func 0), (1, JSValue.func 9)], nextId := 2,
             trace := [Event.run] }) := by
  exact (register_fresh_id_and_storage (fun _ => JSValue.func 9) none
    { destroyers := [(0, JSValue.func 0)], nextId := 1, trace := [] }
    (by decide)).2.1 9 rfl

/-- C10: a handle whose stored snapshot is the empty array is decided
rerun = false by the comparator on every later `perform([])`: one such
call returns with the handle and state untouched (no run event, no
error), and so does any number of them — the side effect keeps the single
run it got at registration.  By contrast, absent dependencies are decided
rerun = true unconditionally. -/
theorem empty_deps_run_once
    (se : Nat → JSValue) (h : Handle) (s : PState) (i : Nat)
    (hid : h.id = some i) (hdeps : h.dependencies = some []) :
    dependenciesChanged (some []) (some []) = Except.ok false
    ∧ performEffect se h s (some []) = Except.ok (h, s)
    ∧ (∀ k, performN se (some []) k h s = Except.ok (h, s))
    ∧ dependenciesChanged none none = Except.ok true := by
  have hstep : performEffect se h s (some []) = Except.ok (h, s) := by
    simp [performEffect, hid, hdeps, dependenciesChanged, depsDifferAt]
  refine ⟨rfl, hstep, ?_, rfl⟩
  intro k
  induction k with
  | zero => rfl
  | succ k ih => simp [performN, hstep, ih]

/-- Witness for C10 at a concrete input: a handle with the empty snapshot
is left untouched by one and by three reinvocations with `[]`. -/
theorem empty_deps_run_once_witness :
    performEffect (fun _ => JSValue.undefined)
        { id := some 0, dependencies := some [], runs := 1 }
        { destroyers := [], nextId := 1, trace := [Event.run] } (some [])
      = Except.ok ({ id := some 0, dependencies := some [], runs := 1 },
          { destroyers := [], nextId := 1, trace := [Event.run] })
    ∧ performN (fun _ => JSValue.undefined) (some []) 3
        { id := some 0, dependencies := some [], runs := 1 }
        { destroyers := [], nextId := 1, trace := [Event.run] }
      = Except.ok ({ id := some 0, dependencies := some [], runs := 1 },
          { destroyers := [], nextId := 1, trace := [Event.run] }) := by
  have h := empty_deps_run_once (fun _ => JSValue.undefined)
    { id := some 0, dependencies := some [], runs := 1 }
    { destroyers := [], nextId := 1, trace := [Event.run] } 0 rfl rfl
  exact ⟨h.2.1, h.2.2.1 3⟩

end Pedlar
